import Mathlib

/-!
Verification model of the quickbase client library
(src/quickbase/__init__.py).  Python values are embedded shallowly:
strings as `List Char`, byte strings as `List ℕ`, machine integers as
`ℕ`/`ℤ`, fallible construction as `Except`, and the recursive pagination
controller as a fuel-indexed function together with an explicit log of the
requests it issues.
-/

deriving instance DecidableEq for Except

namespace Quickbase

/-! ## Pagination controller (`recursive_query`, lines 1234-1276)

The server is abstracted by the true total row count (what the
`querycount` sub-request reports) and by which bounded page sizes trigger
the row-ceiling error 75.  A successful bounded fetch with page size
`num` and skip offset `skip` returns the records with indices
`[skip, min (skip+num) total)`, records being identified with their
indices in query order. -/

/-- Request issued against the server during pagination: the
`API_DoQueryCount` request of the initial-sizing branch, or a bounded
`API_DoQuery` fetch carrying a page size (`num-` option) and a skip
offset (`skp-` option, 0 when no partial results exist yet). -/
inductive Fetch where
  | count : Fetch
  | query (num skip : ℕ) : Fetch
deriving DecidableEq, Repr

/-- State of a `QuickbaseAction` as used by `recursive_query`:
`record_return` is the current page size (`none` before initial sizing),
`record_count` the known total, `error_75_retry` the flag meaning the
previous attempt hit the row ceiling, and `response` the accumulated
records (`none` before the first merged fetch). -/
structure QObj where
  record_return : Option ℕ
  record_count : ℕ
  error_75_retry : Bool
  response : Option (List ℕ)
deriving DecidableEq, Repr

/-- Abstract server: total row count reported by `API_DoQueryCount`, and
the page sizes whose bounded fetch comes back with error 75. -/
structure Server where
  total : ℕ
  err75 : ℕ → Bool

/-- Result of a pagination run: normal return of the final action state,
the `QuickbaseError` raise of the minimum-threshold branch, or fuel
exhaustion of the model. -/
inductive Outcome where
  | ok (q : QObj)
  | volumeError
  | outOfFuel
deriving DecidableEq, Repr

/-- Records returned by a successful bounded fetch (lines 1261-1270):
the slice `[skip, min (skip+num) total)` of the full result. -/
def pageSlice (total num skip : ℕ) : List ℕ :=
  ((List.range total).drop skip).take num

/-- Initial page size chosen by the sizing branch (lines 1238-1241):
8192 when the reported total reaches 8192, otherwise half the total
rounded down (`int(int(record_count) / 2)`). -/
def initialSize (total : ℕ) : ℕ :=
  if 8192 ≤ total then 8192 else total / 2

/-- Fetch-and-merge step of `recursive_query` (lines 1261-1274), with
the recursive continuation abstracted as `rq`.  A successful bounded
fetch appends its page to the accumulated response and recurses; a
fetch answered with error 75 follows `performAction`'s handler (lines
296-298): the fractional query is marked for retry and `recursive_query`
runs on it, after which its response is merged and the outer query
recurses. -/
def fetchStepF (srv : Server) (rq : QObj → Outcome × List Fetch) (q2 : QObj)
    (num skip : ℕ) : Outcome × List Fetch :=
  if srv.err75 num then
    match rq ⟨some num, q2.record_count, true, none⟩ with
    | (Outcome.ok frac, lg) =>
      let merged : QObj :=
        { q2 with response := some (q2.response.getD [] ++ frac.response.getD []) }
      let r := rq merged
      (r.1, Fetch.query num skip :: (lg ++ r.2))
    | (o, lg) => (o, Fetch.query num skip :: lg)
  else
    let merged : QObj :=
      { q2 with response := some (q2.response.getD [] ++ pageSlice srv.total num skip) }
    let r := rq merged
    (r.1, Fetch.query num skip :: r.2)

/-- Options assembly, termination check and fetch of `recursive_query`
(lines 1248-1274): return the accumulated response once it reaches the
known total, otherwise fetch one more page at the current page size
with a skip offset equal to the accumulated count (0 while no partial
results exist). -/
def phase2F (srv : Server) (rq : QObj → Outcome × List Fetch) (q2 : QObj) :
    Outcome × List Fetch :=
  let num := q2.record_return.getD 0
  match q2.response with
  | some vs =>
    if q2.record_count ≤ vs.length then (Outcome.ok q2, [])
    else fetchStepF srv rq q2 num vs.length
  | none => fetchStepF srv rq q2 num 0

/-- One-to-one embedding of `recursive_query` (lines 1234-1276) driven
by fuel.  The second component of the result is the log of requests
issued, in order.  The three top branches are lines 1235-1247: initial
sizing via the count request, the minimum-threshold raise, and the
halve-clear-recurse step (whose Python falls through to the fetch part
with the returned object, as modelled). -/
def recursiveQuery (srv : Server) : ℕ → QObj → Outcome × List Fetch
  | 0, _ => (Outcome.outOfFuel, [])
  | fuel + 1, q =>
    match q.record_return with
    | none =>
      let q2 : QObj :=
        { q with record_return := some (initialSize srv.total), record_count := srv.total }
      let r := phase2F srv (recursiveQuery srv fuel) q2
      (r.1, Fetch.count :: r.2)
    | some g =>
      if g < 100 ∧ q.error_75_retry = true then (Outcome.volumeError, [])
      else if q.error_75_retry = true then
        match recursiveQuery srv fuel { q with record_return := some (g / 2), error_75_retry := false } with
        | (Outcome.ok q2, lg) =>
          let r := phase2F srv (recursiveQuery srv fuel) q2
          (r.1, lg ++ r.2)
        | (o, lg) => (o, lg)
      else phase2F srv (recursiveQuery srv fuel) q

/-- State in which `recursive_query` is entered from `performAction`
(lines 296-298): no page size chosen, no accumulated response, and the
retry flag already set by the error-75 handler that invoked it. -/
def entryState : QObj := ⟨none, 0, true, none⟩

/-- Lower bound check on the page size of a logged request; count
requests carry no page size and pass. -/
def fetchMin (m : ℕ) : Fetch → Bool
  | Fetch.count => true
  | Fetch.query num _ => m ≤ num

/-! ## Authentication-kind retry (`performAction`, lines 280-295)

Only the error-code dispatch on status 4/83 is modelled here: the server
is a function from the attempt index to the error code it answers, and
the log records the credential kind used by each issued request. -/

/-- Credential kind of the application context
(`authentication_type`). -/
inductive AuthKind where
  | ticket
  | usertoken
deriving DecidableEq, Repr

/-- The opposite credential kind. -/
def flipAuth : AuthKind → AuthKind
  | AuthKind.ticket => AuthKind.usertoken
  | AuthKind.usertoken => AuthKind.ticket

/-- Result of the auth-level run of `performAction`: normal completion
with the final credential kind on the application context, the
`AuthenticationError` raise, or fuel exhaustion of the model. -/
inductive AuthOutcome where
  | ok (kind : AuthKind)
  | authError
  | fuelOut
deriving DecidableEq, Repr

/-- Error-code dispatch of `performAction` (lines 280-295) at the level
of credential kinds.  `respond i` is the status code of the i-th issued
request.  Status 4 rewrites the context and request to the user-token
kind and re-issues with `retry=True`; status 83 rewrites to the ticket
kind and re-issues; with `retry` already set, either status raises
`AuthenticationError` without another issue.  The log lists the
credential kind of each issued request. -/
def performAuth (respond : ℕ → ℕ) : ℕ → Bool → ℕ → AuthKind → AuthOutcome × List AuthKind
  | 0, _, _, _ => (AuthOutcome.fuelOut, [])
  | fuel + 1, retry, attempt, kind =>
    let code := respond attempt
    if code = 4 then
      if retry then (AuthOutcome.authError, [kind])
      else
        let r := performAuth respond fuel true (attempt + 1) AuthKind.usertoken
        (r.1, kind :: r.2)
    else if code = 83 then
      if retry then (AuthOutcome.authError, [kind])
      else
        let r := performAuth respond fuel true (attempt + 1) AuthKind.ticket
        (r.1, kind :: r.2)
    else (AuthOutcome.ok kind, [kind])

/-! ## String substitution and UTF-8 (for the credential flip, lines 283-285 and 291-293)

Python strings are `List Char`, byte strings `List ℕ`.  `pyReplace`
mirrors `str.replace` / `bytes.replace`: all leftmost non-overlapping
occurrences, scanning left to right and resuming after each replaced
occurrence. -/

/-- Whether the list begins with the pattern (first argument). -/
def startsWithL {α : Type} [DecidableEq α] : List α → List α → Bool
  | [], _ => true
  | _ :: _, [] => false
  | p :: ps, x :: xs => decide (p = x) && startsWithL ps xs

/-- Worker for `pyReplace`: the counter holds how many already-replaced
elements remain to be skipped before matching resumes. -/
def pyReplaceAux {α : Type} [DecidableEq α] (P R : List α) : ℕ → List α → List α
  | _, [] => []
  | k + 1, _ :: s => pyReplaceAux P R k s
  | 0, c :: s =>
    if startsWithL P (c :: s) then R ++ pyReplaceAux P R (P.length - 1) s
    else c :: pyReplaceAux P R 0 s

/-- Replacement of every leftmost non-overlapping occurrence of `P` by
`R`, as `str.replace` and `bytes.replace` do. -/
def pyReplace {α : Type} [DecidableEq α] (P R s : List α) : List α :=
  pyReplaceAux P R 0 s

/-- UTF-8 encoding of a single code point (1 to 4 bytes). -/
def utf8Char (c : Char) : List ℕ :=
  if c.toNat < 128 then [c.toNat]
  else if c.toNat < 2048 then [192 + c.toNat / 64, 128 + c.toNat % 64]
  else if c.toNat < 65536 then
    [224 + c.toNat / 4096, 128 + (c.toNat / 64) % 64, 128 + c.toNat % 64]
  else
    [240 + c.toNat / 262144, 128 + (c.toNat / 4096) % 64, 128 + (c.toNat / 64) % 64,
      128 + c.toNat % 64]

/-- UTF-8 encoding of a string, as `str.encode` produces it. -/
def utf8 (s : List Char) : List ℕ :=
  (s.map utf8Char).flatten

/-- The literal substituted away by the status-4 handler. -/
def ticketTok : List Char := "ticket".toList

/-- The literal substituted in by the status-4 handler. -/
def usertokenTok : List Char := "usertoken".toList

/-- Text and byte state of an in-flight action: the application
context's `authentication_string`, the stored request text `self.data`,
and the outgoing bytes `self.request.data`. -/
structure ActionState where
  authString : List Char
  data : List Char
  requestData : List ℕ
deriving DecidableEq, Repr

/-- Status-4 rewrite (lines 283-286): replace `ticket` by `usertoken` in
the context's authentication string, the stored request text, and the
outgoing bytes. -/
def flip4 (st : ActionState) : ActionState :=
  { authString := pyReplace ticketTok usertokenTok st.authString
    data := pyReplace ticketTok usertokenTok st.data
    requestData := pyReplace (utf8 ticketTok) (utf8 usertokenTok) st.requestData }

/-- Status-83 rewrite (lines 291-294): replace `usertoken` by `ticket`
in the same three places. -/
def flip83 (st : ActionState) : ActionState :=
  { authString := pyReplace usertokenTok ticketTok st.authString
    data := pyReplace usertokenTok ticketTok st.data
    requestData := pyReplace (utf8 usertokenTok) (utf8 ticketTok) st.requestData }

/-! ## CSV building (`buildCSV`, lines 493-598) -/

/-- The `item.replace` call of the escape block: each quote character
becomes two. -/
def doubleQuotes (s : List Char) : List Char :=
  (s.map fun c => if c = '"' then ['"', '"'] else [c]).flatten

/-- Python's `item[0] == ... and item[-1] == ...` test guarded by the
newline check: first and last characters are both quote characters. -/
def wrappedInQuotes (s : List Char) : Bool :=
  decide (s.head? = some '"') && decide (s.getLast? = some '"')

/-- Escape block applied to every CSV value (lines 523-529, repeated at
494-501, 544-550 and 577-583): double embedded quotes and wrap, else
wrap when a comma is present, then wrap when a newline is present and
the value is not already wrapped. -/
def escapeItem (s : List Char) : List Char :=
  let s1 :=
    if '"' ∈ s then '"' :: (doubleQuotes s ++ ['"'])
    else if ',' ∈ s then '"' :: (s ++ ['"'])
    else s
  if '\n' ∈ s1 ∧ ¬ wrappedInQuotes s1 = true then '"' :: (s1 ++ ['"']) else s1

/-- Rendering of one CSV value, with `None` first converted to the empty
string (lines 520-522) and the escape block applied. -/
def renderValue (v : Option (List Char)) : List Char :=
  escapeItem (v.getD [])

/-- Python value standing at an item position of a CSV row: a string, a
`None`, or anything else (which the builder's `assert type(item) == str`
rejects). -/
inductive PyItem where
  | istr (s : List Char)
  | inone
  | iother
deriving DecidableEq, Repr

/-- Python value standing at a key position of the dict payload. -/
inductive PyKey where
  | kstr (s : List Char)
  | kother
deriving DecidableEq, Repr

/-- Python value mapped to by a key of the dict payload. -/
inductive PyField where
  | flist (items : List PyItem)
  | fother
deriving DecidableEq, Repr

/-- Failure modes of the builders: a failed `assert`, or the unbound
name `clist` of line 407. -/
inductive BuildError where
  | assertionError
  | nameError
deriving DecidableEq, Repr

/-- Item conversion of the dict branch (lines 574-576): `None` becomes
the empty string, a string passes, anything else fails the assert. -/
def itemText : PyItem → Except BuildError (List Char)
  | PyItem.inone => Except.ok []
  | PyItem.istr s => Except.ok s
  | PyItem.iother => Except.error BuildError.assertionError

/-- Structured form of the XML body built for `API_ImportFromCSV`:
the `%`-substituted fields of the template at lines 586-598. -/
structure CSVBody where
  msInUTC : List Char
  auth : List Char
  recordsCsv : List Char
  clist : List Char
  skipfirst : List Char
deriving DecidableEq, Repr

/-- Python's `split` on the dot separator (`self.clist.split(".")`). -/
def splitDot (s : List Char) : List (List Char) :=
  s.foldr
    (fun c acc =>
      match acc with
      | [] => if c = '.' then [[], []] else [[c]]
      | a :: as => if c = '.' then [] :: a :: as else (c :: a) :: as)
    [[]]

/-- Shape accepted for one dict entry by the asserts of line 570: a
string key mapped to a list. -/
def wellShaped : PyKey × PyField → Bool
  | (PyKey.kstr _, PyField.flist _) => true
  | _ => false

/-- Sequential conversion of a row's items (the inner loop at lines
573-584): the first failing `assert` aborts the build. -/
def mapItems : List PyItem → Except BuildError (List (List Char))
  | [] => Except.ok []
  | i :: t =>
    match itemText i with
    | Except.error e => Except.error e
    | Except.ok s =>
      match mapItems t with
      | Except.error e => Except.error e
      | Except.ok ts => Except.ok (s :: ts)

/-- Loop body of the dict branch of `buildCSV` (lines 569-585): a
string key mapped to a list renders as `record_id,items...` with the
escape block per item (the trailing comma replaced by a newline, as
`csv_lines[:-1] + "\n"` does) appended to the accumulated lines; any
other shape, or a non-string non-`None` item, fails its `assert`. -/
def csvDictStep (acc : List Char) (e : PyKey × PyField) : Except BuildError (List Char) :=
  match e with
  | (PyKey.kstr rid, PyField.flist items) =>
    Except.map
      (fun texts =>
        ((acc ++ rid ++ [','] ++
            (texts.map fun t => escapeItem t ++ [',']).flatten).dropLast) ++ ['\n'])
      (mapItems items)
  | _ => Except.error BuildError.assertionError

/-- Dict branch of `buildCSV`, assembled: the membership assert, the
fold over the entries, and the final template whose `skipfirst` is the
literal `0`. -/
def buildCSVDict (msInUTC auth clist skipFirstFlag : List Char)
    (entries : List (PyKey × PyField)) : Except BuildError CSVBody :=
  if ("3".toList) ∈ splitDot clist then
    Except.map
      (fun lines =>
        { msInUTC := msInUTC, auth := auth, recordsCsv := lines,
          clist := clist, skipfirst := "0".toList })
      (entries.foldlM csvDictStep [])
  else Except.error BuildError.assertionError

/-! ## Query building (`buildQuery`, lines 394-445) -/

/-- Structured form of the XML body built for a query-kind action: the
elements the branches of `buildQuery` emit. -/
structure QueryBody where
  encoding : Bool
  auth : List Char
  tag : List Char
  predicate : Option (List Char)
  clist : Option (List Char)
  slist : Option (List Char)
deriving DecidableEq, Repr

/-- Whether the pattern occurs as a contiguous sublist (Python's
`in` on strings). -/
def containsSub {α : Type} [DecidableEq α] (p : List α) : List α → Bool
  | [] => startsWithL p []
  | c :: s => startsWithL p (c :: s) || containsSub p s

/-- Python's `s.split("=", 1)[1]`: everything after the first `=`. -/
def dropThroughEq : List Char → List Char
  | [] => []
  | c :: s => if c = '=' then s else dropThroughEq s

/-- Python `"%s" % x` where `x` may be `None`. -/
def pyStr (o : Option (List Char)) : List Char :=
  match o with
  | none => "None".toList
  | some s => s

/-- Python truthiness of an optional string: `None` and the empty
string are falsy. -/
def pyTruthy (o : Option (List Char)) : Bool :=
  match o with
  | none => false
  | some s => decide (s ≠ [])

/-- Embedding of `buildQuery` (lines 394-445).  With a truthy predicate
the `query=`/`qid=`/`qname=` marker is stripped; the branch for the
sort list literal `0` then evaluates the unbound name `clist` (line
407), a `NameError`, so construction fails there.  Without a truthy
predicate the sort list literal `0` yields a body with no `slist`
element; any other sort list is emitted via `%s` (so `None` renders as
the text `None`). -/
def buildQuery (force_utf8 : Bool) (auth tagStr : List Char)
    (query clist slist : Option (List Char)) : Except BuildError QueryBody :=
  let clistPart : Option (List Char) := if pyTruthy clist then clist else none
  if pyTruthy query then
    let q0 := query.getD []
    let q1 :=
      if containsSub ("query=".toList) q0 || containsSub ("qid=".toList) q0
          || containsSub ("qname=".toList) q0 then
        dropThroughEq q0
      else q0
    if slist = some ("0".toList) then Except.error BuildError.nameError
    else
      Except.ok { encoding := force_utf8, auth := auth, tag := tagStr,
                  predicate := some q1, clist := clistPart, slist := some (pyStr slist) }
  else
    if slist = some ("0".toList) then
      Except.ok { encoding := force_utf8, auth := auth, tag := tagStr,
                  predicate := none, clist := clistPart, slist := none }
    else
      Except.ok { encoding := force_utf8, auth := auth, tag := tagStr,
                  predicate := none, clist := clistPart, slist := some (pyStr slist) }

/-! ## Schema-key normalization (`getTableFIDDict`, lines 741-756) -/

/-- Characters the regex `\W` does not match, in its ASCII reading:
alphanumerics and the underscore. -/
def isWordChar (c : Char) : Bool :=
  c.isAlphanum || c = '_'

/-- The substitution `alphanumeric_regex.sub("_", label)`: every
non-word character becomes an underscore. -/
def subNonWord (s : List Char) : List Char :=
  s.map fun c => if isWordChar c then c else '_'

/-- Python's `.lower()` applied characterwise. -/
def lowerChars (s : List Char) : List Char :=
  s.map Char.toLower

/-- Normalized schema-lookup key (line 750):
`alphanumeric_regex.sub("_", field_label).lower()`. -/
def normalizedKey (s : List Char) : List Char :=
  lowerChars (subNonWord s)

/-- Normalization rule as the spec words it, for comparison with the
source's `normalizedKey`: replace every non-alphanumeric character with
an underscore and lower-case the result. -/
def specNormalizedKey (s : List Char) : List Char :=
  s.map fun c => if c.isAlphanum then c.toLower else '_'

end Quickbase

namespace Quickbase

set_option maxRecDepth 40000

/-! ## Theorems -/

/-- C9: the normalized schema-lookup key is obtained by replacing every
non-alphanumeric character of the label with its own underscore and
lower-casing the result: `normalizedKey` (the source's regex
substitution followed by `.lower()`) agrees with the rule worded by the
spec on every label, preserves the label's length (runs of
non-alphanumeric characters are not collapsed), and in particular sends
"Date Issued (Initial)" to "date_issued__initial_". -/
theorem C9_normalized_key :
    (∀ s : List Char, normalizedKey s = specNormalizedKey s ∧
      (normalizedKey s).length = s.length) ∧
    normalizedKey ("Date Issued (Initial)".toList) =
      ("date_issued__initial_".toList) := by
  refine ⟨fun s => ⟨?_, ?_⟩, by decide⟩
  · induction s with
    | nil => rfl
    | cons c t ih =>
      have hc : Char.toLower (if isWordChar c then c else '_') =
          (if c.isAlphanum then c.toLower else '_') := by
        by_cases h : c.isAlphanum
        · simp [isWordChar, h]
        · by_cases h2 : c = '_'
          · subst h2; decide
          · have hw : isWordChar c = false := by simp [isWordChar, h, h2]
            rw [hw]
            simp [h]
      simp only [normalizedKey, specNormalizedKey, lowerChars, subNonWord,
        List.map_cons, hc] at *
      simp [ih]
  · simp [normalizedKey, lowerChars, subNonWord]

/-- C8: with the sort list literal "0", a query-kind build succeeds with
no `slist` element only when the predicate is empty; with a non-empty
predicate, line 407 evaluates the unbound name `clist` and construction
fails with a `NameError` instead of succeeding. -/
theorem C8_slist_zero :
    buildQuery false ("<ticket>tkt</ticket>".toList) ("query".toList)
        (some ("3.EX.5".toList)) (some ("3".toList)) (some ("0".toList)) =
      Except.error BuildError.nameError ∧
    buildQuery false ("<ticket>tkt</ticket>".toList) ("query".toList)
        none (some ("3".toList)) (some ("0".toList)) =
      Except.ok { encoding := false, auth := ("<ticket>tkt</ticket>".toList),
                  tag := "query".toList, predicate := none,
                  clist := some ("3".toList), slist := none } :=
  ⟨by decide, by decide⟩

/-- C1: evaluation of the pagination controller at total row count 150
with bounded fetches that never hit the row ceiling.  Because
`performAction` sets the retry flag before entering `recursive_query`
and the initial-sizing branch never clears it, the run issues the count
request and one bounded fetch of page size 75, then raises
`QuickbaseError` instead of issuing the second fetch and returning the
150 accumulated records that the claim (and the spec's own example)
require. -/
theorem C1_run_at_150 :
    recursiveQuery ⟨150, fun _ => false⟩ 10 entryState =
      (Outcome.volumeError, [Fetch.count, Fetch.query 75 0]) := by decide

/-- C3: on a credential-mismatch status (4 with a ticket-kind request,
83 with a token-kind request), `performAction` flips the credential
kind and re-issues exactly once: the run issues exactly two requests,
the second with the flipped kind; a second mismatch status raises
`AuthenticationError` with no third issue, and any other second status
completes normally with the flipped kind on the context. -/
theorem C3_auth_flip (respond : ℕ → ℕ) (k : AuthKind)
    (h : (respond 0 = 4 ∧ k = AuthKind.ticket) ∨
      (respond 0 = 83 ∧ k = AuthKind.usertoken)) :
    (performAuth respond 2 false 0 k).2 = [k, flipAuth k] ∧
    ((respond 1 = 4 ∨ respond 1 = 83) →
      (performAuth respond 2 false 0 k).1 = AuthOutcome.authError) ∧
    (¬ (respond 1 = 4 ∨ respond 1 = 83) →
      (performAuth respond 2 false 0 k).1 = AuthOutcome.ok (flipAuth k)) := by
  rcases h with ⟨h0, hk⟩ | ⟨h0, hk⟩ <;> subst hk <;>
    by_cases h4 : respond 1 = 4 <;> by_cases h83 : respond 1 = 83 <;>
      simp_all [performAuth, flipAuth]

/-- Witness for C3: server answering 4 then 83 against a ticket-kind
request: two issues, ticket then usertoken, then the authentication
error. -/
theorem C3_auth_flip_witness :
    (performAuth (fun i => if i = 0 then 4 else 83) 2 false 0 AuthKind.ticket).2 =
        [AuthKind.ticket, AuthKind.usertoken] ∧
    (performAuth (fun i => if i = 0 then 4 else 83) 2 false 0 AuthKind.ticket).1 =
        AuthOutcome.authError :=
  ⟨(C3_auth_flip _ _ (Or.inl ⟨rfl, rfl⟩)).1,
    (C3_auth_flip _ _ (Or.inl ⟨rfl, rfl⟩)).2.1 (Or.inr rfl)⟩

/-- C4: a pagination run entered with no page size chosen first issues
the query-count request and then a bounded fetch whose page size is
8192 when the reported total is at least 8192 and half the total
rounded down otherwise, whatever the server's error behaviour and the
available fuel. -/
theorem C4_initial_sizing (srv : Server) (fuel : ℕ) :
    ((recursiveQuery srv (fuel + 1) entryState).2).take 2 =
      [Fetch.count, Fetch.query (if 8192 ≤ srv.total then 8192 else srv.total / 2) 0] := by
  rw [show (if 8192 ≤ srv.total then 8192 else srv.total / 2) = initialSize srv.total from rfl]
  simp only [recursiveQuery, entryState, phase2F, fetchStepF]
  split
  · rcases h : recursiveQuery srv fuel ⟨some (initialSize srv.total), srv.total, true, none⟩ with
      ⟨o, lg⟩
    cases o <;> simp [h]
  · simp

/-- Chosen page size, when present, is positive. -/
def sizeOk (q : QObj) : Bool :=
  match q.record_return with
  | none => true
  | some g => decide (1 ≤ g)

/-- Page size present and positive. -/
def sizeSet (q : QObj) : Bool :=
  match q.record_return with
  | none => false
  | some g => decide (1 ≤ g)

/-- Positivity of the initial page size for totals of at least 2. -/
lemma initialSize_pos {t : ℕ} (h : 2 ≤ t) : 1 ≤ initialSize t := by
  unfold initialSize
  split <;> omega

/-- Invariant carried through a pagination run: every logged fetch has
a positive page size, and a normal return carries a positive page
size. -/
def invP (r : Outcome × List Fetch) : Prop :=
  r.2.all (fetchMin 1) = true ∧ ∀ q2, r.1 = Outcome.ok q2 → sizeSet q2 = true

lemma sizeSet_imp_sizeOk {q : QObj} (h : sizeSet q = true) : sizeOk q = true := by
  unfold sizeSet at h
  unfold sizeOk
  rcases hr : q.record_return with _ | g <;> rw [hr] at h <;> simp_all

/-- The fetch-and-merge step preserves the positivity invariant. -/
lemma fetchStepF_inv (srv : Server) (rq : QObj → Outcome × List Fetch)
    (hrq : ∀ q, sizeOk q = true → invP (rq q)) (q2 : QObj) (hq2 : sizeSet q2 = true)
    (num skip : ℕ) (hnum : 1 ≤ num) : invP (fetchStepF srv rq q2 num skip) := by
  have hq2ok : sizeOk q2 = true := sizeSet_imp_sizeOk hq2
  unfold fetchStepF
  split
  · rcases h : rq ⟨some num, q2.record_count, true, none⟩ with ⟨o, lg⟩
    have hfrac := hrq ⟨some num, q2.record_count, true, none⟩ (by simp [sizeOk, hnum])
    rw [h] at hfrac
    cases o with
    | ok frac =>
      have hmerged := hrq
        { q2 with response := some (q2.response.getD [] ++ frac.response.getD []) } hq2ok
      exact ⟨by simp [List.all_cons, List.all_append, fetchMin, hnum, hfrac.1, hmerged.1],
        fun q' h' => hmerged.2 q' h'⟩
    | volumeError =>
      exact ⟨by simp [fetchMin, hnum, hfrac.1], fun q' h' => absurd h' (by simp)⟩
    | outOfFuel =>
      exact ⟨by simp [fetchMin, hnum, hfrac.1], fun q' h' => absurd h' (by simp)⟩
  · have hmerged := hrq
      { q2 with response := some (q2.response.getD [] ++ pageSlice srv.total num skip) } hq2ok
    exact ⟨by simp [List.all_cons, fetchMin, hnum, hmerged.1],
      fun q' h' => hmerged.2 q' h'⟩

/-- The termination-check-and-fetch part preserves the positivity
invariant. -/
lemma phase2F_inv (srv : Server) (rq : QObj → Outcome × List Fetch)
    (hrq : ∀ q, sizeOk q = true → invP (rq q)) (q2 : QObj) (hq2 : sizeSet q2 = true) :
    invP (phase2F srv rq q2) := by
  obtain ⟨g, hg, hg1⟩ : ∃ g, q2.record_return = some g ∧ 1 ≤ g := by
    unfold sizeSet at hq2
    rcases hr : q2.record_return with _ | g <;> rw [hr] at hq2
    · simp at hq2
    · exact ⟨g, rfl, by simpa using hq2⟩
  unfold phase2F
  rw [hg]
  rcases hresp : q2.response with _ | vs
  · show invP (fetchStepF srv rq q2 ((some g).getD 0) 0)
    simpa using fetchStepF_inv srv rq hrq q2 hq2 g 0 hg1
  · show invP (if q2.record_count ≤ vs.length then (Outcome.ok q2, ([] : List Fetch))
      else fetchStepF srv rq q2 ((some g).getD 0) vs.length)
    by_cases hterm : q2.record_count ≤ vs.length
    · rw [if_pos hterm]
      exact ⟨rfl, fun q' h' => by cases h'; exact hq2⟩
    · rw [if_neg hterm]
      simpa using fetchStepF_inv srv rq hrq q2 hq2 g vs.length hg1

/-- The pagination run only issues fetches with positive page sizes
when the reported total is at least 2, whatever the fuel, the error
behaviour and the halvings taken. -/
lemma recursiveQuery_inv (srv : Server) (htot : 2 ≤ srv.total) :
    ∀ fuel q, sizeOk q = true → invP (recursiveQuery srv fuel q) := by
  intro fuel
  induction fuel with
  | zero =>
    intro q hq
    exact ⟨rfl, fun q2 h => by simp [recursiveQuery] at h⟩
  | succ fuel ih =>
    intro q hq
    obtain ⟨rr, cnt, e75, resp⟩ := q
    rcases rr with _ | g
    · have hq2 : sizeSet
          (⟨some (initialSize srv.total), srv.total, e75, resp⟩ : QObj) = true := by
        simp [sizeSet, initialSize_pos htot]
      have hphase := phase2F_inv srv (recursiveQuery srv fuel) ih _ hq2
      simp only [recursiveQuery]
      exact ⟨by simp [fetchMin, hphase.1], fun q' h' => hphase.2 q' h'⟩
    · have hg1 : 1 ≤ g := by simpa [sizeOk] using hq
      cases e75 with
      | false =>
        have hphase := phase2F_inv srv (recursiveQuery srv fuel) ih
          (⟨some g, cnt, false, resp⟩ : QObj) (by simp [sizeSet, hg1])
        simp only [recursiveQuery]
        simpa using hphase
      | true =>
        simp only [recursiveQuery]
        by_cases h100 : g < 100
        · rw [if_pos ⟨h100, trivial⟩]
          exact ⟨rfl, fun q2 h => absurd h (by simp)⟩
        · rw [if_neg (by tauto), if_pos trivial]
          have hinner := ih (⟨some (g / 2), cnt, false, resp⟩ : QObj)
            (by simp [sizeOk]; omega)
          rcases hrec : recursiveQuery srv fuel (⟨some (g / 2), cnt, false, resp⟩ : QObj)
            with ⟨o, lg⟩
          rw [hrec] at hinner
          cases o with
          | ok q2 =>
            have hphase := phase2F_inv srv (recursiveQuery srv fuel) ih q2
              (hinner.2 q2 rfl)
            exact ⟨by simp [List.all_append, hinner.1, hphase.1],
              fun q' h' => hphase.2 q' h'⟩
          | volumeError => exact ⟨hinner.1, fun q' h' => absurd h' (by simp)⟩
          | outOfFuel => exact ⟨hinner.1, fun q' h' => absurd h' (by simp)⟩

/-- Counterexample for C5: at reported total 0 the initial sizing picks
page size `0 / 2 = 0` and the controller issues a bounded fetch with
page size zero before raising, so the page size of an issued fetch does
reach zero. -/
theorem C5_zero_size_counterexample :
    recursiveQuery ⟨0, fun _ => false⟩ 10 entryState =
      (Outcome.volumeError, [Fetch.count, Fetch.query 0 0]) ∧
    ¬ (recursiveQuery ⟨0, fun _ => false⟩ 10 entryState).2.all (fetchMin 1) = true := by
  decide

/-- C5 amended: for every reported total of at least 2, every server
error behaviour, and every fuel (hence every sequence of halvings), the
page size used in an issued fetch of the pagination run is never
zero. -/
theorem C5_positive_page_size (srv : Server) (fuel : ℕ) (htot : 2 ≤ srv.total) :
    (recursiveQuery srv fuel entryState).2.all (fetchMin 1) = true :=
  (recursiveQuery_inv srv htot fuel entryState rfl).1

/-- Witness for C5 at total 2. -/
theorem C5_positive_page_size_witness :
    (recursiveQuery ⟨2, fun _ => false⟩ 10 entryState).2.all (fetchMin 1) = true :=
  C5_positive_page_size ⟨2, fun _ => false⟩ 10 (by decide)

/-- In a run against a server that answers every bounded fetch with the
row-ceiling error, a retry state raises once the page size is below
100, and every fetch issued on the way (each the result of a halving
from at least 100) has page size at least 50. -/
lemma allErr_chain (N : ℕ) :
    ∀ fuel g cnt, g + 2 ≤ fuel →
      (recursiveQuery ⟨N, fun _ => true⟩ fuel ⟨some g, cnt, true, none⟩).1 =
          Outcome.volumeError ∧
      (recursiveQuery ⟨N, fun _ => true⟩ fuel ⟨some g, cnt, true, none⟩).2.all
          (fetchMin 50) = true := by
  intro fuel
  induction fuel using Nat.strong_induction_on with
  | _ fuel ih =>
    intro g cnt hg
    obtain ⟨f1, rfl⟩ : ∃ f1, fuel = f1 + 1 := ⟨fuel - 1, by omega⟩
    by_cases h100 : g < 100
    · simp [recursiveQuery, h100]
    · obtain ⟨f2, hf2⟩ : ∃ f2, f1 = f2 + 1 := ⟨f1 - 1, by omega⟩
      have hchain := ih f2 (by omega) (g / 2) cnt (by omega)
      rcases hfr : recursiveQuery ⟨N, fun _ => true⟩ f2 ⟨some (g / 2), cnt, true, none⟩
        with ⟨o2, lg2⟩
      rw [hfr] at hchain
      obtain ⟨h1, h2⟩ := hchain
      simp only at h1 h2
      subst h1
      have hin : recursiveQuery ⟨N, fun _ => true⟩ f1 ⟨some (g / 2), cnt, false, none⟩ =
          (Outcome.volumeError, Fetch.query (g / 2) 0 :: lg2) := by
        subst hf2
        simp [recursiveQuery, phase2F, fetchStepF, hfr]
      simp only [recursiveQuery]
      rw [if_neg (by tauto), if_pos trivial, hin]
      refine ⟨by simp, ?_⟩
      simp only [List.all_cons, h2, Bool.and_true, fetchMin]
      simp only [decide_eq_true_eq]
      omega

/-- Counterexample for C2: at reported total 100 with every bounded
fetch hitting the row ceiling, the controller issues a fetch with page
size exactly 50 (the initial size `100 / 2`) before raising the fatal
query-volume error, so a fetch with page size 50 or less is
attempted. -/
theorem C2_attempts_50_counterexample :
    recursiveQuery ⟨100, fun _ => true⟩ 20 entryState =
      (Outcome.volumeError, [Fetch.count, Fetch.query 50 0]) ∧
    ¬ (recursiveQuery ⟨100, fun _ => true⟩ 20 entryState).2.all (fetchMin 51) = true := by
  decide

/-- C2 amended: when every bounded fetch triggers the row-ceiling
error, the pagination run terminates by raising the fatal query-volume
error, and every fetch issued after the initial-sized one has page size
at least 50 (each is a halving of a page size of at least 100); while
the page size is at least 100 with the retry flag set, the controller
halves, clears the flag and recurses, so the next issued fetch carries
the halved page size rather than a raise occurring. -/
theorem C2_min_threshold (N fuel g cnt : ℕ)
    (hfuel : initialSize N + 6 ≤ fuel) (hg : 100 ≤ g) :
    ((recursiveQuery ⟨N, fun _ => true⟩ fuel entryState).1 = Outcome.volumeError ∧
      ((recursiveQuery ⟨N, fun _ => true⟩ fuel entryState).2.drop 2).all
        (fetchMin 50) = true) ∧
    ((recursiveQuery ⟨N, fun _ => true⟩ fuel ⟨some g, cnt, true, none⟩).2.take 1 =
      [Fetch.query (g / 2) 0]) := by
  constructor
  · obtain ⟨f1, rfl⟩ : ∃ f1, fuel = f1 + 1 := ⟨fuel - 1, by omega⟩
    have hchain := allErr_chain N f1 (initialSize N) N (by omega)
    rcases hfr : recursiveQuery ⟨N, fun _ => true⟩ f1 ⟨some (initialSize N), N, true, none⟩
      with ⟨o2, lg2⟩
    rw [hfr] at hchain
    obtain ⟨h1, h2⟩ := hchain
    simp only at h1 h2
    subst h1
    have hrun : recursiveQuery ⟨N, fun _ => true⟩ (f1 + 1) entryState =
        (Outcome.volumeError,
          Fetch.count :: Fetch.query (initialSize N) 0 :: lg2) := by
      simp [recursiveQuery, entryState, phase2F, fetchStepF, hfr]
    rw [hrun]
    exact ⟨rfl, by simpa using h2⟩
  · obtain ⟨f1, rfl⟩ : ∃ f1, fuel = f1 + 1 := ⟨fuel - 1, by omega⟩
    obtain ⟨f2, hf2⟩ : ∃ f2, f1 = f2 + 1 := ⟨f1 - 1, by omega⟩
    have h100 : ¬ g < 100 := by omega
    have hin : ∃ o' lg',
        recursiveQuery ⟨N, fun _ => true⟩ f1 ⟨some (g / 2), cnt, false, none⟩ =
          (o', Fetch.query (g / 2) 0 :: lg') := by
      subst hf2
      rcases hfr : recursiveQuery ⟨N, fun _ => true⟩ f2 ⟨some (g / 2), cnt, true, none⟩
        with ⟨o2, lg2⟩
      rcases o2 with q3 | _ | _
      · refine ⟨(recursiveQuery ⟨N, fun _ => true⟩ f2
            ⟨some (g / 2), cnt, false, some (q3.response.getD [])⟩).1,
          lg2 ++ (recursiveQuery ⟨N, fun _ => true⟩ f2
            ⟨some (g / 2), cnt, false, some (q3.response.getD [])⟩).2, ?_⟩
        simp [recursiveQuery, phase2F, fetchStepF, hfr]
      · exact ⟨Outcome.volumeError, lg2, by simp [recursiveQuery, phase2F, fetchStepF, hfr]⟩
      · exact ⟨Outcome.outOfFuel, lg2, by simp [recursiveQuery, phase2F, fetchStepF, hfr]⟩
    rcases hin with ⟨o', lg', hin⟩
    simp only [recursiveQuery]
    rw [if_neg (by tauto), if_pos trivial, hin]
    cases o' <;> simp

/-- Witness for C2 at total 300 (initial size 150, halved to 75, then
the raise) and at page size 100 (halved to 50 and fetched). -/
theorem C2_min_threshold_witness :
    ((recursiveQuery ⟨300, fun _ => true⟩ 8200 entryState).1 = Outcome.volumeError ∧
      ((recursiveQuery ⟨300, fun _ => true⟩ 8200 entryState).2.drop 2).all
        (fetchMin 50) = true) ∧
    ((recursiveQuery ⟨300, fun _ => true⟩ 8200 ⟨some 100, 0, true, none⟩).2.take 1 =
      [Fetch.query 50 0]) :=
  C2_min_threshold 300 8200 100 0 (by decide) (by decide)

/-- The skip counter of `pyReplaceAux` just drops elements. -/
lemma pyReplaceAux_skip {α : Type} [DecidableEq α] (P R : List α) :
    ∀ k s, pyReplaceAux P R k s = pyReplaceAux P R 0 (s.drop k) := by
  intro k
  induction k with
  | zero => intro s; rw [List.drop_zero]
  | succ k ih =>
    intro s
    cases s with
    | nil => rfl
    | cons c t => rw [show pyReplaceAux P R (k + 1) (c :: t) = pyReplaceAux P R k t from rfl,
        ih t, List.drop_succ_cons]

/-- Unfolding of `pyReplace` on a non-empty list. -/
lemma pyReplace_cons {α : Type} [DecidableEq α] (P R : List α) (c : α) (s : List α) :
    pyReplace P R (c :: s) =
      if startsWithL P (c :: s) = true then R ++ pyReplace P R (s.drop (P.length - 1))
      else c :: pyReplace P R s := by
  show pyReplaceAux P R 0 (c :: s) = _
  rw [show pyReplaceAux P R 0 (c :: s) =
    (if startsWithL P (c :: s) then R ++ pyReplaceAux P R (P.length - 1) s
     else c :: pyReplaceAux P R 0 s) from rfl]
  rw [pyReplaceAux_skip]
  rfl

/-- A list starts with itself followed by anything. -/
lemma startsWithL_append_self {α : Type} [DecidableEq α] (l m : List α) :
    startsWithL l (l ++ m) = true := by
  induction l with
  | nil => rfl
  | cons c t ih => simp [startsWithL, ih]

/-- A positive match decomposes the list into pattern and rest. -/
lemma startsWithL_decomp {α : Type} [DecidableEq α] :
    ∀ P s : List α, startsWithL P s = true → s = P ++ s.drop P.length := by
  intro P
  induction P with
  | nil => intro s _; simp
  | cons p pt ih =>
    intro s h
    cases s with
    | nil => simp [startsWithL] at h
    | cons c t =>
      simp only [startsWithL, Bool.and_eq_true, decide_eq_true_eq] at h
      obtain ⟨rfl, h2⟩ := h
      have := ih t h2
      simp only [List.length_cons, List.cons_append, List.drop_succ_cons]
      exact congrArg _ this

/-- Replacing inside a list that begins with the whole pattern. -/
lemma pyReplace_append_self {α : Type} [DecidableEq α] (P R m : List α) (hP : P ≠ []) :
    pyReplace P R (P ++ m) = R ++ pyReplace P R m := by
  obtain ⟨b, bs, rfl⟩ : ∃ b bs, P = b :: bs := by
    cases P with
    | nil => exact absurd rfl hP
    | cons b bs => exact ⟨b, bs, rfl⟩
  have hsw : startsWithL (b :: bs) (b :: (bs ++ m)) = true :=
    startsWithL_append_self (b :: bs) m
  rw [show (b :: bs) ++ m = b :: (bs ++ m) from rfl, pyReplace_cons, if_pos hsw]
  simp [List.drop_left]

/-- Elements at least 128 never begin a match of a pattern whose head
is below 128, so they are copied through unchanged. -/
lemma pyReplace_high_prefix (p0 : ℕ) (pt R : List ℕ) (hp0 : p0 < 128) :
    ∀ l m, (∀ b ∈ l, 128 ≤ b) →
      pyReplace (p0 :: pt) R (l ++ m) = l ++ pyReplace (p0 :: pt) R m := by
  intro l
  induction l with
  | nil => intro m _; rfl
  | cons b t ih =>
    intro m hl
    have hb : 128 ≤ b := hl b (by simp)
    rw [show (b :: t) ++ m = b :: (t ++ m) from rfl, pyReplace_cons]
    rw [if_neg (by
      simp only [startsWithL, Bool.and_eq_true, decide_eq_true_eq]
      rintro ⟨rfl, -⟩
      omega)]
    rw [ih m (fun x hx => hl x (by simp [hx]))]
    rfl

/-- UTF-8 of a concatenation. -/
lemma utf8_append (a b : List Char) : utf8 (a ++ b) = utf8 a ++ utf8 b := by
  simp [utf8]

/-- UTF-8 of a cons. -/
lemma utf8_cons (c : Char) (s : List Char) : utf8 (c :: s) = utf8Char c ++ utf8 s := by
  simp [utf8]

/-- An ASCII code point encodes as its own single byte. -/
lemma utf8Char_ascii {c : Char} (h : c.toNat < 128) : utf8Char c = [c.toNat] := by
  simp [utf8Char, h]

/-- Every byte of the encoding of a non-ASCII code point is at least
128. -/
lemma utf8Char_high {c : Char} (h : 128 ≤ c.toNat) : ∀ b ∈ utf8Char c, 128 ≤ b := by
  intro b hb
  have hn : ¬ c.toNat < 128 := by omega
  by_cases h2 : c.toNat < 2048
  · simp [utf8Char, hn, h2] at hb
    rcases hb with rfl | rfl <;> omega
  · by_cases h3 : c.toNat < 65536
    · simp [utf8Char, hn, h2, h3] at hb
      rcases hb with rfl | rfl | rfl <;> omega
    · simp [utf8Char, hn, h2, h3] at hb
      rcases hb with rfl | rfl | rfl | rfl <;> omega

/-- The encoding of a code point is never empty. -/
lemma utf8Char_ne_nil (c : Char) : utf8Char c ≠ [] := by
  unfold utf8Char
  split
  · simp
  · split
    · simp
    · split
      · simp
      · simp

/-- Code points with equal numeric values are equal. -/
lemma charToNat_inj {c d : Char} (h : c.toNat = d.toNat) : c = d :=
  Char.ext (UInt32.ext h)

/-- Matching an all-ASCII pattern at the byte level is the same as
matching it at the character level. -/
lemma startsWithL_utf8 (P : List Char) (hA : ∀ c ∈ P, c.toNat < 128) :
    ∀ s, startsWithL (utf8 P) (utf8 s) = startsWithL P s := by
  induction P with
  | nil => intro s; rfl
  | cons p pt ih =>
    intro s
    have hp : p.toNat < 128 := hA p (by simp)
    have hA' : ∀ c ∈ pt, c.toNat < 128 := fun c hc => hA c (by simp [hc])
    rw [utf8_cons, utf8Char_ascii hp]
    cases s with
    | nil => simp [utf8, startsWithL]
    | cons c t =>
      rw [utf8_cons]
      by_cases hc : c.toNat < 128
      · rw [utf8Char_ascii hc]
        show (decide (p.toNat = c.toNat) && startsWithL (utf8 pt) (utf8 t)) = _
        rw [ih hA' t]
        have : decide (p.toNat = c.toNat) = decide (p = c) := by
          by_cases he : p = c
          · subst he; simp
          · have : ¬ p.toNat = c.toNat := fun hn => he (charToNat_inj hn)
            simp [he, this]
        rw [this]
        rfl
      · obtain ⟨b, bs, hbc⟩ : ∃ b bs, utf8Char c = b :: bs := by
          rcases hcc : utf8Char c with _ | ⟨b, bs⟩
          · exact absurd hcc (utf8Char_ne_nil c)
          · exact ⟨b, bs, rfl⟩
        have hb : 128 ≤ b :=
          utf8Char_high (show (128 : ℕ) ≤ c.toNat by omega) b (by rw [hbc]; simp)
        rw [hbc]
        show (decide (p.toNat = b) && _) = _
        have h1 : decide (p.toNat = b) = false := by
          simp only [decide_eq_false_iff_not]
          omega
        have h2 : decide (p = c) = false := by
          simp only [decide_eq_false_iff_not]
          intro he
          subst he
          omega
        show (decide (p.toNat = b) && _) = (decide (p = c) && _)
        rw [h1, h2, Bool.false_and, Bool.false_and]

/-- Replacing an all-ASCII pattern commutes with UTF-8 encoding: doing
the same substitution on the text and on its encoded bytes keeps the
bytes equal to the encoding of the text. -/
lemma utf8_pyReplace (P R : List Char) (hP : P ≠ [])
    (hA : ∀ c ∈ P, c.toNat < 128) :
    ∀ n s, s.length ≤ n →
      pyReplace (utf8 P) (utf8 R) (utf8 s) = utf8 (pyReplace P R s) := by
  intro n
  induction n with
  | zero =>
    intro s hs
    have : s = [] := List.length_eq_zero.mp (by omega)
    subst this
    rfl
  | succ n ih =>
    intro s hs
    cases s with
    | nil => rfl
    | cons c t =>
      obtain ⟨p0, pt, hPc⟩ : ∃ p0 pt, P = p0 :: pt := by
        cases P with
        | nil => exact absurd rfl hP
        | cons p0 pt => exact ⟨p0, pt, rfl⟩
      by_cases hm : startsWithL P (c :: t) = true
      · -- the pattern matches here: both sides emit the replacement and
        -- continue after the match
        have hdec := startsWithL_decomp P (c :: t) hm
        have hdrop : (c :: t).drop P.length = t.drop (P.length - 1) := by
          subst hPc
          simp [List.drop_succ_cons]
        rw [pyReplace_cons, if_pos hm]
        have hlen : (t.drop (P.length - 1)).length ≤ n := by
          have := List.length_drop (P.length - 1) t
          simp only [List.length_cons] at hs
          omega
        calc pyReplace (utf8 P) (utf8 R) (utf8 (c :: t))
            = pyReplace (utf8 P) (utf8 R) (utf8 (P ++ t.drop (P.length - 1))) := by
              rw [← hdrop, ← hdec]
          _ = pyReplace (utf8 P) (utf8 R) (utf8 P ++ utf8 (t.drop (P.length - 1))) := by
              rw [utf8_append]
          _ = utf8 R ++ pyReplace (utf8 P) (utf8 R) (utf8 (t.drop (P.length - 1))) := by
              rw [pyReplace_append_self _ _ _ (by
                subst hPc
                rw [utf8_cons]
                intro hcon
                exact utf8Char_ne_nil p0 (List.append_eq_nil.mp hcon).1)]
          _ = utf8 R ++ utf8 (pyReplace P R (t.drop (P.length - 1))) := by
              rw [ih _ hlen]
          _ = utf8 (R ++ pyReplace P R (t.drop (P.length - 1))) := by
              rw [utf8_append]
      · -- no match here: the head character is copied through on both
        -- sides
        rw [pyReplace_cons, if_neg hm]
        have hlen : t.length ≤ n := by
          simp only [List.length_cons] at hs
          omega
        by_cases hc : c.toNat < 128
        · have hbm : startsWithL (utf8 P) (c.toNat :: utf8 t) ≠ true := by
            have h0 := startsWithL_utf8 P hA (c :: t)
            rw [utf8_cons, utf8Char_ascii hc] at h0
            simp only [List.singleton_append] at h0
            rw [h0]
            exact hm
          calc pyReplace (utf8 P) (utf8 R) (utf8 (c :: t))
              = pyReplace (utf8 P) (utf8 R) (c.toNat :: utf8 t) := by
                rw [utf8_cons, utf8Char_ascii hc]
                rfl
            _ = c.toNat :: pyReplace (utf8 P) (utf8 R) (utf8 t) := by
                rw [pyReplace_cons, if_neg hbm]
            _ = c.toNat :: utf8 (pyReplace P R t) := by rw [ih t hlen]
            _ = utf8 (c :: pyReplace P R t) := by
                rw [utf8_cons, utf8Char_ascii hc]
                rfl
        · have hhigh : ∀ b ∈ utf8Char c, 128 ≤ b :=
            utf8Char_high (show (128 : ℕ) ≤ c.toNat by omega)
          have hp0 : p0.toNat < 128 := hA p0 (by rw [hPc]; simp)
          have hPb : utf8 P = p0.toNat :: utf8 pt := by
            rw [hPc, utf8_cons, utf8Char_ascii hp0]
            rfl
          calc pyReplace (utf8 P) (utf8 R) (utf8 (c :: t))
              = pyReplace (utf8 P) (utf8 R) (utf8Char c ++ utf8 t) := by rw [utf8_cons]
            _ = utf8Char c ++ pyReplace (utf8 P) (utf8 R) (utf8 t) := by
                rw [hPb]
                exact pyReplace_high_prefix p0.toNat (utf8 pt) (utf8 R) hp0 _ _ hhigh
            _ = utf8Char c ++ utf8 (pyReplace P R t) := by rw [ih t hlen]
            _ = utf8 (c :: pyReplace P R t) := by rw [utf8_cons]

/-- C6: after a credential-kind switch rewrites the stored request text
and the outgoing payload bytes with the same substitution, the
transmitted bytes still equal the UTF-8 encoding of the stored text,
for the status-4 rewrite and the status-83 rewrite alike. -/
theorem C6_flip_consistency (st : ActionState) (h : st.requestData = utf8 st.data) :
    (flip4 st).requestData = utf8 ((flip4 st).data) ∧
    (flip83 st).requestData = utf8 ((flip83 st).data) := by
  constructor
  · show pyReplace (utf8 ticketTok) (utf8 usertokenTok) st.requestData =
      utf8 (pyReplace ticketTok usertokenTok st.data)
    rw [h]
    exact utf8_pyReplace ticketTok usertokenTok (by decide) (by decide)
      st.data.length st.data le_rfl
  · show pyReplace (utf8 usertokenTok) (utf8 ticketTok) st.requestData =
      utf8 (pyReplace usertokenTok ticketTok st.data)
    rw [h]
    exact utf8_pyReplace usertokenTok ticketTok (by decide) (by decide)
      st.data.length st.data le_rfl

/-- Witness for C6 at a freshly built action state, whose bytes are the
encoding of its text (line 263). -/
theorem C6_flip_consistency_witness :
    (flip4 ⟨"<ticket>tkt</ticket>".toList, "<qdbapi><ticket>tkt</ticket></qdbapi>".toList,
        utf8 ("<qdbapi><ticket>tkt</ticket></qdbapi>".toList)⟩).requestData =
      utf8 ((flip4 ⟨"<ticket>tkt</ticket>".toList,
        "<qdbapi><ticket>tkt</ticket></qdbapi>".toList,
        utf8 ("<qdbapi><ticket>tkt</ticket></qdbapi>".toList)⟩).data) :=
  (C6_flip_consistency _ rfl).1

/-- Last element of a list with a singleton appended. -/
lemma getLast?_append_singleton {α : Type} (l : List α) (a : α) :
    (l ++ [a]).getLast? = some a := by
  induction l with
  | nil => rfl
  | cons x t ih =>
    cases t with
    | nil => rfl
    | cons y u =>
      simp only [List.cons_append] at ih ⊢
      rw [List.getLast?_cons_cons]
      exact ih

/-- An escaped value of the wrap form starts and ends with a quote. -/
lemma wrapped_wrap (l : List Char) : wrappedInQuotes ('"' :: (l ++ ['"'])) = true := by
  simp only [wrappedInQuotes, Bool.and_eq_true, decide_eq_true_eq]
  exact ⟨rfl, getLast?_append_singleton ('"' :: l) '"'⟩

/-- C7: the escape block of every `buildCSV` payload variant renders a
value containing a quote with each quote doubled and the whole value
wrapped in quotes, wraps every value containing a comma or a line
break, and renders a `None` value as the empty field. -/
theorem C7_csv_escaping (s : List Char) :
    ('"' ∈ s → escapeItem s = '"' :: (doubleQuotes s ++ ['"'])) ∧
    (('"' ∈ s ∨ ',' ∈ s ∨ '\n' ∈ s) → wrappedInQuotes (escapeItem s) = true) ∧
    renderValue none = [] := by
  have quoteCase : '"' ∈ s → escapeItem s = '"' :: (doubleQuotes s ++ ['"']) := by
    intro h
    have hw := wrapped_wrap (doubleQuotes s)
    simp [escapeItem, h, hw]
  refine ⟨quoteCase, ?_, rfl⟩
  intro h
  by_cases hq : '"' ∈ s
  · rw [quoteCase hq]; exact wrapped_wrap _
  · by_cases hcm : ',' ∈ s
    · have he : escapeItem s = '"' :: (s ++ ['"']) := by
        simp [escapeItem, hq, hcm, wrapped_wrap s]
      rw [he]; exact wrapped_wrap s
    · have hn : '\n' ∈ s := by tauto
      by_cases hw : wrappedInQuotes s = true
      · have he : escapeItem s = s := by simp [escapeItem, hq, hcm, hw]
        rw [he]; exact hw
      · have he : escapeItem s = '"' :: (s ++ ['"']) := by
          simp [escapeItem, hq, hcm, hn, hw]
        rw [he]; exact wrapped_wrap s

/-- Witness for C7 at concrete values with a quote and with a comma and
a line break. -/
theorem C7_csv_escaping_witness :
    escapeItem ("x\"y".toList) = '"' :: (doubleQuotes ("x\"y".toList) ++ ['"']) ∧
    wrappedInQuotes (escapeItem ("a,b\nc".toList)) = true ∧
    renderValue none = [] :=
  ⟨(C7_csv_escaping _).1 (by decide),
    (C7_csv_escaping ("a,b\nc".toList)).2.1 (Or.inr (Or.inl (by decide))),
    (C7_csv_escaping []).2.2⟩

/-- On `Except`, binding a success applies the continuation. -/
lemma except_ok_bind {ε α β : Type} (a : α) (f : α → Except ε β) :
    (Except.ok a >>= f : Except ε β) = f a := rfl

/-- On `Except`, binding a failure keeps the failure. -/
lemma except_error_bind {ε α β : Type} (e : ε) (f : α → Except ε β) :
    ((Except.error e : Except ε α) >>= f) = Except.error e := rfl

/-- Mapping over a success of `Except`. -/
lemma except_map_ok {ε α β : Type} (f : α → β) (a : α) :
    Except.map f (Except.ok a : Except ε α) = Except.ok (f a) := rfl

/-- Mapping over a failure of `Except`. -/
lemma except_map_error {ε α β : Type} (f : α → β) (e : ε) :
    Except.map f (Except.error e : Except ε α) = Except.error e := rfl

/-- The item conversion of the dict branch either succeeds or fails its
type assert. -/
lemma mapItems_ok_or_assert (items : List PyItem) :
    (∃ t, mapItems items = Except.ok t) ∨
    mapItems items = Except.error BuildError.assertionError := by
  induction items with
  | nil => exact Or.inl ⟨[], rfl⟩
  | cons i t ih =>
    cases i with
    | istr s =>
      rcases ih with ⟨tt, h⟩ | h
      · exact Or.inl ⟨s :: tt, by simp [mapItems, itemText, h]⟩
      · exact Or.inr (by simp [mapItems, itemText, h])
    | inone =>
      rcases ih with ⟨tt, h⟩ | h
      · exact Or.inl ⟨[] :: tt, by simp [mapItems, itemText, h]⟩
      · exact Or.inr (by simp [mapItems, itemText, h])
    | iother => exact Or.inr (by simp [mapItems, itemText])

/-- A successful fold over the dict entries forces every entry to be a
string key mapped to a list. -/
lemma csvDictFold_ok_shapes (entries : List (PyKey × PyField)) :
    ∀ acc lines, entries.foldlM csvDictStep acc = Except.ok lines →
      entries.all wellShaped = true := by
  induction entries with
  | nil => simp
  | cons e es ih =>
    intro acc lines h
    rw [List.foldlM_cons] at h
    rcases e with ⟨k, v⟩
    cases k with
    | kstr rid =>
      cases v with
      | flist items =>
        rcases mapItems_ok_or_assert items with ⟨t, ht⟩ | ht
        · rw [show csvDictStep acc (PyKey.kstr rid, PyField.flist items) =
              Except.map _ (mapItems items) from rfl, ht, except_map_ok,
            except_ok_bind] at h
          simp only [List.all_cons, wellShaped, Bool.true_and]
          exact ih _ _ h
        · rw [show csvDictStep acc (PyKey.kstr rid, PyField.flist items) =
              Except.map _ (mapItems items) from rfl, ht, except_map_error,
            except_error_bind] at h
          exact absurd h (by simp)
      | fother =>
        rw [show csvDictStep acc (PyKey.kstr rid, PyField.fother) =
            Except.error BuildError.assertionError from rfl, except_error_bind] at h
        exact absurd h (by simp)
    | kother =>
      rw [show csvDictStep acc (PyKey.kother, v) =
          Except.error BuildError.assertionError from rfl, except_error_bind] at h
      exact absurd h (by simp)

/-- A badly shaped entry makes the fold over the dict entries fail with
the assertion error. -/
lemma csvDictFold_bad (entries : List (PyKey × PyField))
    (hbad : ¬ entries.all wellShaped = true) :
    ∀ acc, entries.foldlM csvDictStep acc = Except.error BuildError.assertionError := by
  induction entries with
  | nil => simp at hbad
  | cons e es ih =>
    intro acc
    rw [List.foldlM_cons]
    rcases e with ⟨k, v⟩
    cases k with
    | kstr rid =>
      cases v with
      | flist items =>
        have hbad2 : ¬ es.all wellShaped = true := by
          simpa [wellShaped] using hbad
        rcases mapItems_ok_or_assert items with ⟨t, ht⟩ | ht
        · rw [show csvDictStep acc (PyKey.kstr rid, PyField.flist items) =
              Except.map _ (mapItems items) from rfl, ht, except_map_ok, except_ok_bind]
          exact ih hbad2 _
        · rw [show csvDictStep acc (PyKey.kstr rid, PyField.flist items) =
              Except.map _ (mapItems items) from rfl, ht, except_map_error, except_error_bind]
      | fother =>
        rw [show csvDictStep acc (PyKey.kstr rid, PyField.fother) =
            Except.error BuildError.assertionError from rfl, except_error_bind]
    | kother =>
      rw [show csvDictStep acc (PyKey.kother, v) =
          Except.error BuildError.assertionError from rfl, except_error_bind]

/-- C10: the dict payload of the edit/import builder constructs a body
only when the dotted field list contains the record-id field `3` and
every entry is a string key mapped to a list; when either condition
fails, construction fails with the assertion error before any body is
produced; and every successfully built body carries the `skipfirst`
element `0` regardless of the caller's skip-first flag. -/
theorem C10_dict_guard (msInUTC auth clist sf : List Char)
    (entries : List (PyKey × PyField)) :
    (∀ b, buildCSVDict msInUTC auth clist sf entries = Except.ok b →
      (("3".toList) ∈ splitDot clist ∧ entries.all wellShaped = true ∧
        b.skipfirst = "0".toList)) ∧
    (¬ (("3".toList) ∈ splitDot clist ∧ entries.all wellShaped = true) →
      buildCSVDict msInUTC auth clist sf entries = Except.error BuildError.assertionError) := by
  constructor
  · intro b h
    unfold buildCSVDict at h
    by_cases hm : ("3".toList) ∈ splitDot clist
    · rw [if_pos hm] at h
      cases hf : entries.foldlM csvDictStep ([] : List Char) with
      | error err =>
        rw [hf, except_map_error] at h
        exact absurd h (by simp)
      | ok lines =>
        rw [hf, except_map_ok] at h
        injection h with h2
        exact ⟨hm, csvDictFold_ok_shapes entries _ _ hf, by rw [← h2]⟩
    · rw [if_neg hm] at h
      exact absurd h (by simp)
  · intro hcond
    unfold buildCSVDict
    by_cases hm : ("3".toList) ∈ splitDot clist
    · have hbad : ¬ entries.all wellShaped = true := fun hall => hcond ⟨hm, hall⟩
      rw [if_pos hm, csvDictFold_bad entries hbad, except_map_error]
    · rw [if_neg hm]

/-- Witness for C10: a field list without the record-id field makes the
construction fail with the assertion error. -/
theorem C10_dict_guard_witness :
    buildCSVDict ("0".toList) ("A".toList) ("5.6".toList) ("1".toList)
        [(PyKey.kstr ("7".toList), PyField.flist [PyItem.istr ("x".toList)])] =
      Except.error BuildError.assertionError :=
  (C10_dict_guard _ _ _ _ _).2 (by decide)

end Quickbase
